import Mathlib

/-!
Shallow embedding of the circuit-breaker engine of
`internal/infrastructure/circuitbreaker/breaker.go` (package `circuitbreaker`).

Modelling conventions:
* `time.Time` values are `Nat` (nanoseconds since some epoch); the Go zero
  `time.Time` is `0`, so `t.IsZero()` becomes `t = 0` and `a.Before(b)` becomes
  `a < b`.  `time.Now()` never returns the zero time, so trace steps require
  `1 ≤ now`.
* `uint32`/`uint64` counters and generation ids are `Nat`.  The specification
  describes them as unbounded non-negative integers; wrap-around at `2^32`
  events inside a single generation is outside the scope of the claims.
* `float64` appears only in `Config.FailureRatio` and in `shouldTrip`'s
  division of two exactly-representable counter values; both are modelled as
  exact rationals (`ℚ`).  Go's `0.0/0.0` is NaN and `NaN >= x` is `false`,
  which is modelled by an explicit zero-denominator guard in `shouldTrip`.
* The mutex only serialises operations; each locked section is modelled as one
  atomic function from breaker value to breaker value.  `currentState` both
  mutates and reads, so it is split into `currentStateUpd` (the mutation) and
  the returned `(state, generation)` pair, which in the Go code are exactly the
  fields of the updated receiver.
* Logging and tracing calls have no effect on breaker state and are omitted.
-/

/-- `State` of a breaker, Go constants `StateClosed`, `StateOpen`,
`StateHalfOpen`. -/
inductive State where
  | StateClosed
  | StateOpen
  | StateHalfOpen
deriving DecidableEq, Repr

/-- `func (s State) String() string`. -/
def State.string : State → String
  | State.StateClosed => "closed"
  | State.StateOpen => "open"
  | State.StateHalfOpen => "half-open"

/-- Go `Config`.  Spec names: `MaxRequests` = maxHalfOpenRequests,
`Interval` = resetInterval, `Timeout` = openTimeout,
`FailureRatio` = failureRatioThreshold, `MinimumRequests` =
minimumRequestsToTrip. -/
structure Config where
  maxRequests : Nat
  interval : Nat
  timeout : Nat
  failureRatio : ℚ
  minimumRequests : Nat
deriving DecidableEq, Repr

/-- Go `Counts`: the current generation's tallies. -/
structure Counts where
  requests : Nat
  totalSuccesses : Nat
  totalFailures : Nat
  consecutiveSuccesses : Nat
  consecutiveFailures : Nat
deriving DecidableEq, Repr

/-- The all-zero `Counts{}` value. -/
def Counts.zero : Counts :=
  { requests := 0, totalSuccesses := 0, totalFailures := 0,
    consecutiveSuccesses := 0, consecutiveFailures := 0 }

/-- Go `CircuitBreaker` (mutable fields under its mutex). -/
structure CircuitBreaker where
  config : Config
  state : State
  generation : Nat
  counts : Counts
  expiry : Nat
  lastStateChange : Nat
deriving DecidableEq, Repr

/-- `NewCircuitBreaker(config, logger)`: state Closed, zero counts, zero-value
generation and expiry, `lastStateChange = time.Now()` (= `now`). -/
def NewCircuitBreaker (config : Config) (now : Nat) : CircuitBreaker :=
  { config := config, state := State.StateClosed, generation := 0,
    counts := Counts.zero, expiry := 0, lastStateChange := now }

/-- `func (cb *CircuitBreaker) toNewGeneration(now time.Time)`. -/
def CircuitBreaker.toNewGeneration (cb : CircuitBreaker) (now : Nat) :
    CircuitBreaker :=
  let cb2 := { cb with generation := cb.generation + 1, counts := Counts.zero }
  match cb2.state with
  | State.StateClosed =>
      if 0 < cb2.config.interval then
        { cb2 with expiry := now + cb2.config.interval }
      else cb2
  | State.StateOpen => { cb2 with expiry := now + cb2.config.timeout }
  | State.StateHalfOpen => { cb2 with expiry := 0 }

/-- `func (cb *CircuitBreaker) setState(state State, now time.Time)`.
The logger call is omitted.  Note the Go order: the state field is assigned
first, then `toNewGeneration` runs (seeing the new state), and then the
expiry is overwritten: `now + Timeout` when entering Open, the zero time
otherwise. -/
def CircuitBreaker.setState (cb : CircuitBreaker) (state : State) (now : Nat) :
    CircuitBreaker :=
  if cb.state = state then cb
  else
    let cb2 := { cb with state := state, lastStateChange := now }
    let cb3 := cb2.toNewGeneration now
    if state = State.StateOpen then { cb3 with expiry := now + cb3.config.timeout }
    else { cb3 with expiry := 0 }

/-- The mutation performed by
`func (cb *CircuitBreaker) currentState(now time.Time) (State, uint64)`:
in Closed, a non-zero elapsed expiry starts a new generation; in Open, an
elapsed expiry moves to HalfOpen. -/
def CircuitBreaker.currentStateUpd (cb : CircuitBreaker) (now : Nat) :
    CircuitBreaker :=
  match cb.state with
  | State.StateClosed =>
      if cb.expiry ≠ 0 ∧ cb.expiry < now then cb.toNewGeneration now else cb
  | State.StateOpen =>
      if cb.expiry < now then cb.setState State.StateHalfOpen now else cb
  | State.StateHalfOpen => cb

/-- `currentState` returns the updated receiver together with its (new)
`state` and `generation` fields. -/
def CircuitBreaker.currentState (cb : CircuitBreaker) (now : Nat) :
    CircuitBreaker × State × Nat :=
  ((cb.currentStateUpd now), (cb.currentStateUpd now).state,
   (cb.currentStateUpd now).generation)

/-- The two error values of the package: `ErrCircuitOpen` and
`ErrTooManyRequests` — the only errors the breaker itself creates. -/
inductive BreakerError where
  | errCircuitOpen
  | errTooManyRequests
deriving DecidableEq, Repr

/-- `func (cb *CircuitBreaker) beforeRequest() (uint64, error)` at time `now`,
returning the updated breaker alongside the Go results. -/
def CircuitBreaker.beforeRequest (cb : CircuitBreaker) (now : Nat) :
    CircuitBreaker × Nat × Option BreakerError :=
  let cb1 := cb.currentStateUpd now
  if cb1.state = State.StateOpen then
    (cb1, cb1.generation, some BreakerError.errCircuitOpen)
  else if cb1.state = State.StateHalfOpen ∧
      cb1.config.maxRequests ≤ cb1.counts.requests then
    (cb1, cb1.generation, some BreakerError.errTooManyRequests)
  else
    ({ cb1 with counts := { cb1.counts with requests := cb1.counts.requests + 1 } },
     cb1.generation, none)

/-- `func (cb *CircuitBreaker) shouldTrip() bool`.  Go computes
`float64(TotalFailures) / float64(Requests) >= FailureRatio`; the exact
quotient of the two counters is the rational `mkRat TotalFailures Requests`.
With `Requests = 0` (possible only when `MinimumRequests = 0`) the Go quotient
is NaN and the comparison is `false`, hence the explicit guard. -/
def CircuitBreaker.shouldTrip (cb : CircuitBreaker) : Bool :=
  if cb.counts.requests < cb.config.minimumRequests then false
  else if cb.counts.requests = 0 then false
  else decide (cb.config.failureRatio ≤
    mkRat (cb.counts.totalFailures : Int) cb.counts.requests)

/-- `func (cb *CircuitBreaker) onSuccess(state State, now time.Time)`. -/
def CircuitBreaker.onSuccess (cb : CircuitBreaker) (state : State) (now : Nat) :
    CircuitBreaker :=
  match state with
  | State.StateClosed =>
      { cb with counts := { cb.counts with
          totalSuccesses := cb.counts.totalSuccesses + 1,
          consecutiveSuccesses := cb.counts.consecutiveSuccesses + 1,
          consecutiveFailures := 0 } }
  | State.StateHalfOpen =>
      let cb2 := { cb with counts := { cb.counts with
          totalSuccesses := cb.counts.totalSuccesses + 1,
          consecutiveSuccesses := cb.counts.consecutiveSuccesses + 1 } }
      if cb2.config.maxRequests ≤ cb2.counts.consecutiveSuccesses then
        cb2.setState State.StateClosed now
      else cb2
  | State.StateOpen => cb

/-- `func (cb *CircuitBreaker) onFailure(state State, now time.Time)`. -/
def CircuitBreaker.onFailure (cb : CircuitBreaker) (state : State) (now : Nat) :
    CircuitBreaker :=
  match state with
  | State.StateClosed =>
      let cb2 := { cb with counts := { cb.counts with
          totalFailures := cb.counts.totalFailures + 1,
          consecutiveFailures := cb.counts.consecutiveFailures + 1,
          consecutiveSuccesses := 0 } }
      if cb2.shouldTrip then cb2.setState State.StateOpen now else cb2
  | State.StateHalfOpen => cb.setState State.StateOpen now
  | State.StateOpen => cb

/-- `func (cb *CircuitBreaker) afterRequest(before uint64, success bool)` at
time `now`.  The `state` passed to `onSuccess`/`onFailure` is the one returned
by `currentState`, i.e. the updated receiver's state field. -/
def CircuitBreaker.afterRequest (cb : CircuitBreaker) (before : Nat)
    (success : Bool) (now : Nat) : CircuitBreaker :=
  let cb1 := cb.currentStateUpd now
  if cb1.generation ≠ before then cb1
  else if success then cb1.onSuccess cb1.state now
  else cb1.onFailure cb1.state now

/-- Behaviour of the wrapped operation `fn` passed to `Execute`: it returns
nil, returns some dependency error (identified by an opaque id), or panics. -/
inductive FnOutcome where
  | ok
  | fails (e : Nat)
  | panics
deriving DecidableEq, Repr

/-- Observable result of one `Execute` call: rejected at admission (the
operation was never invoked and the breaker-originated error is returned),
or the operation ran and its error (or nil) was passed through verbatim,
or the operation panicked and the panic was re-raised. -/
inductive ExecResult where
  | rejected (e : BreakerError)
  | returned (e : Option Nat)
  | panicked
deriving DecidableEq, Repr

/-- The pass-through result for an invoked operation. -/
def opResult : FnOutcome → ExecResult
  | FnOutcome.ok => ExecResult.returned none
  | FnOutcome.fails e => ExecResult.returned (some e)
  | FnOutcome.panics => ExecResult.panicked

/-- `func (cb *CircuitBreaker) Execute(ctx, name, fn)`: admission at time
`t1`, the operation's completion accounted at time `t2`.  A panic is recovered
just long enough to record a failure for the admission's generation, then
re-raised; tracing/logging are omitted. -/
def CircuitBreaker.Execute (cb : CircuitBreaker) (t1 t2 : Nat)
    (outcome : FnOutcome) : CircuitBreaker × ExecResult :=
  match (cb.beforeRequest t1).2.2 with
  | some e => ((cb.beforeRequest t1).1, ExecResult.rejected e)
  | none =>
      match outcome with
      | FnOutcome.ok =>
          (((cb.beforeRequest t1).1).afterRequest (cb.beforeRequest t1).2.1 true t2,
           ExecResult.returned none)
      | FnOutcome.fails e =>
          (((cb.beforeRequest t1).1).afterRequest (cb.beforeRequest t1).2.1 false t2,
           ExecResult.returned (some e))
      | FnOutcome.panics =>
          (((cb.beforeRequest t1).1).afterRequest (cb.beforeRequest t1).2.1 false t2,
           ExecResult.panicked)

/-- Go `Stats` snapshot struct. -/
structure Stats where
  state : String
  requests : Nat
  totalSuccesses : Nat
  totalFailures : Nat
  consecutiveSuccesses : Nat
  consecutiveFailures : Nat
  lastStateChange : Nat
deriving DecidableEq, Repr

/-- `func (cb *CircuitBreaker) Stats() Stats`: reads the stored fields under
the read lock, without calling `currentState`. -/
def CircuitBreaker.statsSnapshot (cb : CircuitBreaker) : Stats :=
  { state := cb.state.string,
    requests := cb.counts.requests,
    totalSuccesses := cb.counts.totalSuccesses,
    totalFailures := cb.counts.totalFailures,
    consecutiveSuccesses := cb.counts.consecutiveSuccesses,
    consecutiveFailures := cb.counts.consecutiveFailures,
    lastStateChange := cb.lastStateChange }

/-- Go `Manager`: the registry map, modelled as an association list. -/
structure Manager where
  breakers : List (String × CircuitBreaker)

/-- `func (m *Manager) GetStats() map[string]Stats`. -/
def Manager.GetStats (m : Manager) : List (String × Stats) :=
  m.breakers.map (fun nb => (nb.1, nb.2.statsSnapshot))

/-! ### Trace semantics

A `Sys` is a breaker together with the multiset (as a list) of generation ids
captured by admitted `Execute` calls whose completion has not yet been
accounted.  Steps are the locked sections of the Go code: an admission
(`beforeRequest`), a completion (`afterRequest` consuming one pending
admission), and a state read (`State()`, whose `currentState` call applies any
due lazy transition).  `Stats()` reads fields without mutating and needs no
step.  All times are at least 1, since `time.Now()` is never the zero time. -/

structure Sys where
  cb : CircuitBreaker
  pending : List Nat

inductive SysStep : Sys → Sys → Prop where
  | admitReq (s : Sys) (t : Nat) (cb2 : CircuitBreaker) (g : Nat) (ht : 1 ≤ t)
      (h : s.cb.beforeRequest t = (cb2, g, none)) :
      SysStep s { cb := cb2, pending := g :: s.pending }
  | reject (s : Sys) (t : Nat) (cb2 : CircuitBreaker) (g : Nat)
      (e : BreakerError) (ht : 1 ≤ t)
      (h : s.cb.beforeRequest t = (cb2, g, some e)) :
      SysStep s { cb := cb2, pending := s.pending }
  | complete (s : Sys) (t g : Nat) (success : Bool) (ht : 1 ≤ t)
      (hg : g ∈ s.pending) :
      SysStep s { cb := s.cb.afterRequest g success t,
                  pending := s.pending.erase g }
  | readState (s : Sys) (t : Nat) (ht : 1 ≤ t) :
      SysStep s { cb := s.cb.currentStateUpd t, pending := s.pending }

inductive Reachable (config : Config) : Sys → Prop where
  | init (t0 : Nat) (ht : 1 ≤ t0) :
      Reachable config { cb := NewCircuitBreaker config t0, pending := [] }
  | step (s1 s2 : Sys) (h1 : Reachable config s1) (h2 : SysStep s1 s2) :
      Reachable config s2

/-! ### Basic characterization lemmas -/

/-! ### Concrete material shared by witnesses and counterexamples -/

/-- Example config: trip on the first failure, probe limit 1, no Closed
reset interval. -/
def cfgEx : Config :=
  { maxRequests := 1, interval := 0, timeout := 10,
    failureRatio := mkRat 1 2, minimumRequests := 1 }

/-- Fresh example breaker, constructed at time 1. -/
def cbEx0 : CircuitBreaker := NewCircuitBreaker cfgEx 1

/-- The example breaker after one admitted failure: tripped to Open at time 2
with expiry 12, generation 1. -/
def cbExOpen : CircuitBreaker := (cbEx0.Execute 1 2 (FnOutcome.fails 0)).1

/-- Config for the C1 counterexample: trip floor 5 requests, threshold 1/10. -/
def cfgC1 : Config :=
  { maxRequests := 3, interval := 0, timeout := 10,
    failureRatio := mkRat 1 10, minimumRequests := 5 }

/-- Closed breaker mid-generation (reached by: five admissions, one failure
completion while `requests < minimumRequests`, one success completion):
5 requests, 1 failure, 1 success recorded. -/
def cbC1 : CircuitBreaker :=
  { config := cfgC1, state := State.StateClosed, generation := 0,
    counts := { requests := 5, totalSuccesses := 1, totalFailures := 1,
                consecutiveSuccesses := 1, consecutiveFailures := 0 },
    expiry := 0, lastStateChange := 1 }

/-- Config for the C6 failing input: Closed reset interval 5. -/
def cfgC6 : Config :=
  { maxRequests := 1, interval := 5, timeout := 10,
    failureRatio := mkRat 1 2, minimumRequests := 1 }

/-- Fresh breaker with `resetInterval = 5`, constructed at time 1. -/
def cbC6fresh : CircuitBreaker := NewCircuitBreaker cfgC6 1

/-- The same breaker after a full trip/recover cycle: one admitted failure
trips it at time 2, the probe at time 100 succeeds at 101, closing it
again. -/
def cbC6closedAgain : CircuitBreaker :=
  ((cbC6fresh.Execute 1 2 (FnOutcome.fails 0)).1.Execute 100 101 FnOutcome.ok).1

/-! ### C5: sequences of admitted successful calls -/

/-- `k` sequential `Execute` calls whose wrapped operation succeeds, all at
time `t`; the Bool records whether every call so far was admitted (returned
the operation's nil error rather than a rejection). -/
def succRounds (cb : CircuitBreaker) (t : Nat) : Nat → CircuitBreaker × Bool
  | 0 => (cb, true)
  | k+1 =>
      let r := succRounds cb t k
      let e := r.1.Execute t t FnOutcome.ok
      (e.1, r.2 && decide (e.2 = ExecResult.returned none))

/-- Config for the C5 counterexample: probe target 2. -/
def cfgC5 : Config :=
  { maxRequests := 2, interval := 0, timeout := 10,
    failureRatio := mkRat 1 2, minimumRequests := 1 }

/-- A mid-probe HalfOpen breaker (reached by entering HalfOpen and completing
one admitted success): one request and one consecutive success already
recorded. -/
def cbC5 : CircuitBreaker :=
  { config := cfgC5, state := State.StateHalfOpen, generation := 2,
    counts := { requests := 1, totalSuccesses := 1, totalFailures := 0,
                consecutiveSuccesses := 1, consecutiveFailures := 0 },
    expiry := 0, lastStateChange := 1 }

/-! ### C8: invariants of reachable states -/

/-- Inductive invariant for the trace semantics.  Beyond the claimed facts
(counter sum bound and mutual exclusion of the consecutive counters) it
carries the auxiliary facts needed to close the induction: pending admissions
still count against the generation that admitted them; HalfOpen generations
never accumulate consecutive failures; every pending generation id is at most
the current one; and outside Open the expiry is the zero time. -/
def SysInv (s : Sys) : Prop :=
  s.cb.counts.totalSuccesses + s.cb.counts.totalFailures
      + s.pending.count s.cb.generation ≤ s.cb.counts.requests ∧
  (s.cb.counts.consecutiveSuccesses = 0 ∨ s.cb.counts.consecutiveFailures = 0) ∧
  (s.cb.state = State.StateHalfOpen → s.cb.counts.consecutiveFailures = 0) ∧
  (∀ g ∈ s.pending, g ≤ s.cb.generation) ∧
  (s.cb.state ≠ State.StateOpen → s.cb.expiry = 0)

/-! ### Lemma layer -/

lemma toNewGeneration_state (cb : CircuitBreaker) (t : Nat) :
    (cb.toNewGeneration t).state = cb.state := by
  unfold CircuitBreaker.toNewGeneration
  cases cb.state <;> simp <;> split <;> simp

lemma toNewGeneration_config (cb : CircuitBreaker) (t : Nat) :
    (cb.toNewGeneration t).config = cb.config := by
  unfold CircuitBreaker.toNewGeneration
  cases cb.state <;> simp <;> split <;> simp

lemma toNewGeneration_generation (cb : CircuitBreaker) (t : Nat) :
    (cb.toNewGeneration t).generation = cb.generation + 1 := by
  unfold CircuitBreaker.toNewGeneration
  cases cb.state <;> simp <;> split <;> simp

lemma toNewGeneration_counts (cb : CircuitBreaker) (t : Nat) :
    (cb.toNewGeneration t).counts = Counts.zero := by
  unfold CircuitBreaker.toNewGeneration
  cases cb.state <;> simp <;> split <;> simp

/-- When the state (seen by `toNewGeneration`) is not Open and not
Closed-with-interval, the expiry is what the final branch assigns; we only
ever need the halfOpen case. -/
lemma toNewGeneration_expiry_halfOpen (cb : CircuitBreaker) (t : Nat)
    (h : cb.state = State.StateHalfOpen) :
    (cb.toNewGeneration t).expiry = 0 := by
  unfold CircuitBreaker.toNewGeneration
  simp [h]

/-- `setState` on an actually-changing state, as one record equation:
generation bumped, counts zeroed, expiry `now + Timeout` when entering Open
and the zero time otherwise. -/
lemma setState_eq (cb : CircuitBreaker) (s : State) (t : Nat)
    (h : cb.state ≠ s) :
    cb.setState s t =
      { config := cb.config, state := s, generation := cb.generation + 1,
        counts := Counts.zero,
        expiry := if s = State.StateOpen then t + cb.config.timeout else 0,
        lastStateChange := t } := by
  unfold CircuitBreaker.setState CircuitBreaker.toNewGeneration
  cases s <;> simp [h] <;> split <;> simp

lemma currentStateUpd_halfOpen (cb : CircuitBreaker) (t : Nat)
    (h : cb.state = State.StateHalfOpen) :
    cb.currentStateUpd t = cb := by
  unfold CircuitBreaker.currentStateUpd
  simp [h]

lemma currentStateUpd_closed_zero (cb : CircuitBreaker) (t : Nat)
    (h : cb.state = State.StateClosed) (hz : cb.expiry = 0) :
    cb.currentStateUpd t = cb := by
  unfold CircuitBreaker.currentStateUpd
  simp [h, hz]

lemma currentStateUpd_open_notElapsed (cb : CircuitBreaker) (t : Nat)
    (h : cb.state = State.StateOpen) (he : ¬ cb.expiry < t) :
    cb.currentStateUpd t = cb := by
  unfold CircuitBreaker.currentStateUpd
  simp [h, he]

lemma currentStateUpd_open_elapsed (cb : CircuitBreaker) (t : Nat)
    (h : cb.state = State.StateOpen) (he : cb.expiry < t) :
    cb.currentStateUpd t =
      { config := cb.config, state := State.StateHalfOpen,
        generation := cb.generation + 1, counts := Counts.zero,
        expiry := 0, lastStateChange := t } := by
  unfold CircuitBreaker.currentStateUpd
  rw [setState_eq cb State.StateHalfOpen t (by rw [h]; intro hc; cases hc)]
  simp [h, he]

lemma currentStateUpd_state_closed (cb : CircuitBreaker) (t : Nat)
    (h : cb.state = State.StateClosed) :
    (cb.currentStateUpd t).state = State.StateClosed := by
  unfold CircuitBreaker.currentStateUpd
  simp [h]
  split
  · rw [toNewGeneration_state, h]
  · exact h

lemma beforeRequest_of_open (cb : CircuitBreaker) (t : Nat)
    (h : (cb.currentStateUpd t).state = State.StateOpen) :
    cb.beforeRequest t =
      (cb.currentStateUpd t, (cb.currentStateUpd t).generation,
       some BreakerError.errCircuitOpen) := by
  unfold CircuitBreaker.beforeRequest
  simp [h]

lemma beforeRequest_of_halfOpen_full (cb : CircuitBreaker) (t : Nat)
    (h : (cb.currentStateUpd t).state = State.StateHalfOpen)
    (hf : (cb.currentStateUpd t).config.maxRequests ≤
      (cb.currentStateUpd t).counts.requests) :
    cb.beforeRequest t =
      (cb.currentStateUpd t, (cb.currentStateUpd t).generation,
       some BreakerError.errTooManyRequests) := by
  unfold CircuitBreaker.beforeRequest
  simp [h, hf]

lemma beforeRequest_of_halfOpen_avail (cb : CircuitBreaker) (t : Nat)
    (h : (cb.currentStateUpd t).state = State.StateHalfOpen)
    (hf : (cb.currentStateUpd t).counts.requests <
      (cb.currentStateUpd t).config.maxRequests) :
    cb.beforeRequest t =
      ({ cb.currentStateUpd t with counts := { (cb.currentStateUpd t).counts with
          requests := (cb.currentStateUpd t).counts.requests + 1 } },
       (cb.currentStateUpd t).generation, none) := by
  unfold CircuitBreaker.beforeRequest
  simp [h, Nat.not_le.mpr hf]

lemma beforeRequest_of_closed (cb : CircuitBreaker) (t : Nat)
    (h : (cb.currentStateUpd t).state = State.StateClosed) :
    cb.beforeRequest t =
      ({ cb.currentStateUpd t with counts := { (cb.currentStateUpd t).counts with
          requests := (cb.currentStateUpd t).counts.requests + 1 } },
       (cb.currentStateUpd t).generation, none) := by
  unfold CircuitBreaker.beforeRequest
  simp [h]

lemma afterRequest_stale (cb : CircuitBreaker) (g : Nat) (success : Bool)
    (t : Nat) (h : (cb.currentStateUpd t).generation ≠ g) :
    cb.afterRequest g success t = cb.currentStateUpd t := by
  unfold CircuitBreaker.afterRequest
  simp [h]

lemma afterRequest_fresh (cb : CircuitBreaker) (g : Nat) (success : Bool)
    (t : Nat) (h : (cb.currentStateUpd t).generation = g) :
    cb.afterRequest g success t =
      if success then
        (cb.currentStateUpd t).onSuccess (cb.currentStateUpd t).state t
      else (cb.currentStateUpd t).onFailure (cb.currentStateUpd t).state t := by
  unfold CircuitBreaker.afterRequest
  simp [h]

lemma execute_of_rejected (cb : CircuitBreaker) (t1 t2 : Nat) (o : FnOutcome)
    (e : BreakerError) (h : (cb.beforeRequest t1).2.2 = some e) :
    cb.Execute t1 t2 o = ((cb.beforeRequest t1).1, ExecResult.rejected e) := by
  unfold CircuitBreaker.Execute
  split
  · next e2 heq => rw [h] at heq; cases heq; rfl
  · next heq => rw [h] at heq; cases heq

lemma execute_of_admitted (cb : CircuitBreaker) (t1 t2 : Nat) (o : FnOutcome)
    (h : (cb.beforeRequest t1).2.2 = none) :
    cb.Execute t1 t2 o =
      ((cb.beforeRequest t1).1.afterRequest (cb.beforeRequest t1).2.1
        (o = FnOutcome.ok) t2, opResult o) := by
  unfold CircuitBreaker.Execute
  split
  · next e2 heq => rw [h] at heq; cases heq
  · cases o <;> simp [opResult]

/-! ### Claim theorems -/

/-- C2: while a breaker is Open and its `openTimeout` has not yet elapsed
(`expiry` not passed), every `Execute` call returns `ErrCircuitOpen` with the
breaker unchanged, for every possible behaviour of the wrapped operation (so
the operation is never invoked); and, in general, every `Execute` result is
either one of the two breaker-originated errors `ErrCircuitOpen` /
`ErrTooManyRequests` or the verbatim pass-through of the wrapped operation's
own outcome. -/
theorem spec_C2 (cb : CircuitBreaker) (t1 t2 : Nat) (o : FnOutcome)
    (hs : cb.state = State.StateOpen) (he : ¬ cb.expiry < t1) :
    cb.Execute t1 t2 o = (cb, ExecResult.rejected BreakerError.errCircuitOpen) ∧
    ∀ (cb2 : CircuitBreaker) (s1 s2 : Nat) (o2 : FnOutcome),
      (cb2.Execute s1 s2 o2).2 = ExecResult.rejected BreakerError.errCircuitOpen ∨
      (cb2.Execute s1 s2 o2).2 = ExecResult.rejected BreakerError.errTooManyRequests ∨
      (cb2.Execute s1 s2 o2).2 = opResult o2 := by
  constructor
  · have hup := currentStateUpd_open_notElapsed cb t1 hs he
    have hbr := beforeRequest_of_open cb t1 (by rw [hup]; exact hs)
    rw [execute_of_rejected cb t1 t2 o BreakerError.errCircuitOpen (by rw [hbr])]
    rw [hbr, hup]
  · intro cb2 s1 s2 o2
    rcases hr : (cb2.beforeRequest s1).2.2 with _ | e
    · right; right
      rw [execute_of_admitted cb2 s1 s2 o2 hr]
    · cases e
      · left
        rw [execute_of_rejected cb2 s1 s2 o2 _ hr]
      · right; left
        rw [execute_of_rejected cb2 s1 s2 o2 _ hr]

theorem spec_C2_witness :
    (cbExOpen.Execute 5 6 FnOutcome.ok =
      (cbExOpen, ExecResult.rejected BreakerError.errCircuitOpen)) ∧
    ((cbEx0.Execute 1 2 (FnOutcome.fails 7)).2 =
        ExecResult.rejected BreakerError.errCircuitOpen ∨
      (cbEx0.Execute 1 2 (FnOutcome.fails 7)).2 =
        ExecResult.rejected BreakerError.errTooManyRequests ∨
      (cbEx0.Execute 1 2 (FnOutcome.fails 7)).2 = opResult (FnOutcome.fails 7)) :=
  ⟨(spec_C2 cbExOpen 5 6 FnOutcome.ok (by decide) (by decide)).1,
   (spec_C2 cbExOpen 5 6 FnOutcome.ok (by decide) (by decide)).2
     cbEx0 1 2 (FnOutcome.fails 7)⟩

/-- C3: a completion whose generation `g` captured at admission differs from
the breaker's current generation at completion time (after the lazy
recompute) is discarded: the result is exactly the time-driven recompute, so
the report changes no counters of the current generation, triggers no state
transition of its own, and its success/failure flag is irrelevant. -/
theorem spec_C3 (cb : CircuitBreaker) (g : Nat) (success : Bool) (t : Nat)
    (h : (cb.currentStateUpd t).generation ≠ g) :
    cb.afterRequest g success t = cb.currentStateUpd t ∧
    (cb.afterRequest g success t).counts = (cb.currentStateUpd t).counts ∧
    (cb.afterRequest g success t).state = (cb.currentStateUpd t).state ∧
    cb.afterRequest g true t = cb.afterRequest g false t := by
  have h1 := afterRequest_stale cb g success t h
  have h2 := afterRequest_stale cb g true t h
  have h3 := afterRequest_stale cb g false t h
  exact ⟨h1, by rw [h1], by rw [h1], by rw [h2, h3]⟩

theorem spec_C3_witness :
    (cbExOpen.afterRequest 0 true 5 = cbExOpen.currentStateUpd 5) ∧
    (cbExOpen.afterRequest 0 true 5).counts = (cbExOpen.currentStateUpd 5).counts ∧
    (cbExOpen.afterRequest 0 true 5).state = (cbExOpen.currentStateUpd 5).state ∧
    cbExOpen.afterRequest 0 true 5 = cbExOpen.afterRequest 0 false 5 :=
  spec_C3 cbExOpen 0 true 5 (by decide)

/-- C4: for a breaker in Open state whose expiry has elapsed, given
`maxHalfOpenRequests ≥ 1`, the next admission check transitions it to
HalfOpen with a new generation, zeroed counts and cleared expiry, and admits
the request (one request recorded, no error). -/
theorem spec_C4 (cb : CircuitBreaker) (t : Nat)
    (hs : cb.state = State.StateOpen) (he : cb.expiry < t)
    (hm : 1 ≤ cb.config.maxRequests) :
    cb.beforeRequest t =
      ({ config := cb.config, state := State.StateHalfOpen,
         generation := cb.generation + 1,
         counts := { requests := 1, totalSuccesses := 0, totalFailures := 0,
                     consecutiveSuccesses := 0, consecutiveFailures := 0 },
         expiry := 0, lastStateChange := t },
       cb.generation + 1, none) := by
  have hup := currentStateUpd_open_elapsed cb t hs he
  rw [beforeRequest_of_halfOpen_avail cb t (by rw [hup])
    (by rw [hup]; simpa [Counts.zero] using hm)]
  rw [hup]
  simp [Counts.zero]

theorem spec_C4_witness :
    cbExOpen.beforeRequest 100 =
      ({ config := cbExOpen.config, state := State.StateHalfOpen,
         generation := cbExOpen.generation + 1,
         counts := { requests := 1, totalSuccesses := 0, totalFailures := 0,
                     consecutiveSuccesses := 0, consecutiveFailures := 0 },
         expiry := 0, lastStateChange := 100 },
       cbExOpen.generation + 1, none) :=
  spec_C4 cbExOpen 100 (by decide) (by decide) (by decide)

/-- C9: when an `Execute` call is admitted and the wrapped operation panics,
the breaker records the outcome as a failure for the admission's generation —
exactly the state effect of a failing operation — and the panic is re-raised
to the caller. -/
theorem spec_C9 (cb : CircuitBreaker) (t1 t2 : Nat)
    (h : (cb.beforeRequest t1).2.2 = none) :
    cb.Execute t1 t2 FnOutcome.panics =
      ((cb.beforeRequest t1).1.afterRequest (cb.beforeRequest t1).2.1 false t2,
       ExecResult.panicked) ∧
    (cb.Execute t1 t2 FnOutcome.panics).1 =
      (cb.Execute t1 t2 (FnOutcome.fails 0)).1 := by
  have h1 := execute_of_admitted cb t1 t2 FnOutcome.panics h
  have h2 := execute_of_admitted cb t1 t2 (FnOutcome.fails 0) h
  constructor
  · rw [h1]; simp [opResult]
  · rw [h1, h2]; simp

theorem spec_C9_witness :
    (cbEx0.Execute 1 2 FnOutcome.panics =
      ((cbEx0.beforeRequest 1).1.afterRequest (cbEx0.beforeRequest 1).2.1 false 2,
       ExecResult.panicked)) ∧
    (cbEx0.Execute 1 2 FnOutcome.panics).1 =
      (cbEx0.Execute 1 2 (FnOutcome.fails 0)).1 :=
  spec_C9 cbEx0 1 2 (by decide)

/-- C10: an `Execute` call rejected at admission with `ErrCircuitOpen`, or
with `ErrTooManyRequests` under `maxHalfOpenRequests ≥ 1`, leaves the breaker
completely unchanged (state, generation, expiry and all counters), and the
call returns the rejection unchanged for every possible behaviour of the
wrapped operation (which is therefore never invoked). -/
theorem spec_C10 (cb : CircuitBreaker) (t : Nat) (e : BreakerError)
    (h : (cb.beforeRequest t).2.2 = some e)
    (hm : e = BreakerError.errTooManyRequests → 1 ≤ cb.config.maxRequests) :
    (cb.beforeRequest t).1 = cb ∧
    ∀ (t2 : Nat) (o : FnOutcome),
      cb.Execute t t2 o = (cb, ExecResult.rejected e) := by
  have h1 : (cb.beforeRequest t).1 = cb := by
    cases hstate : cb.state with
    | StateClosed =>
        have hc := currentStateUpd_state_closed cb t hstate
        rw [beforeRequest_of_closed cb t hc] at h
        simp at h
    | StateOpen =>
        by_cases helap : cb.expiry < t
        · have hup := currentStateUpd_open_elapsed cb t hstate helap
          by_cases hmax : (cb.currentStateUpd t).config.maxRequests ≤
              (cb.currentStateUpd t).counts.requests
          · rw [beforeRequest_of_halfOpen_full cb t (by rw [hup]) hmax] at h
            simp at h
            rw [hup] at hmax
            simp [Counts.zero] at hmax
            have := hm h.symm
            omega
          · rw [beforeRequest_of_halfOpen_avail cb t (by rw [hup])
              (Nat.not_le.mp hmax)] at h
            simp at h
        · have hup := currentStateUpd_open_notElapsed cb t hstate helap
          rw [beforeRequest_of_open cb t (by rw [hup]; exact hstate)]
          rw [hup]
    | StateHalfOpen =>
        have hup := currentStateUpd_halfOpen cb t hstate
        by_cases hmax : (cb.currentStateUpd t).config.maxRequests ≤
            (cb.currentStateUpd t).counts.requests
        · rw [beforeRequest_of_halfOpen_full cb t (by rw [hup]; exact hstate) hmax]
          rw [hup]
        · rw [beforeRequest_of_halfOpen_avail cb t (by rw [hup]; exact hstate)
            (Nat.not_le.mp hmax)] at h
          simp at h
  exact ⟨h1, fun t2 o => by rw [execute_of_rejected cb t t2 o e h, h1]⟩

theorem spec_C10_witness :
    ((cbExOpen.beforeRequest 5).1 = cbExOpen) ∧
    cbExOpen.Execute 5 6 FnOutcome.ok =
      (cbExOpen, ExecResult.rejected BreakerError.errCircuitOpen) :=
  ⟨(spec_C10 cbExOpen 5 BreakerError.errCircuitOpen (by decide) (by decide)).1,
   (spec_C10 cbExOpen 5 BreakerError.errCircuitOpen (by decide) (by decide)).2
     6 FnOutcome.ok⟩

/-! ### Config preservation and the trip condition -/

lemma setState_config (cb : CircuitBreaker) (s : State) (t : Nat) :
    (cb.setState s t).config = cb.config := by
  unfold CircuitBreaker.setState
  split
  · rfl
  · split
    · rw [toNewGeneration_config]
    · rw [toNewGeneration_config]

lemma currentStateUpd_config (cb : CircuitBreaker) (t : Nat) :
    (cb.currentStateUpd t).config = cb.config := by
  unfold CircuitBreaker.currentStateUpd
  split
  · split
    · rw [toNewGeneration_config]
    · rfl
  · split
    · rw [setState_config]
    · rfl
  · rfl

/-- `shouldTrip` holds exactly when the request count has reached the
configured floor, is positive, and the exact failure ratio
`totalFailures / requests` (as the rational `mkRat`) has reached the
threshold. -/
lemma shouldTrip_iff (cb : CircuitBreaker) :
    cb.shouldTrip = true ↔
      (cb.config.minimumRequests ≤ cb.counts.requests ∧
       0 < cb.counts.requests ∧
       cb.config.failureRatio ≤
         mkRat (cb.counts.totalFailures : Int) cb.counts.requests) := by
  unfold CircuitBreaker.shouldTrip
  rcases Nat.lt_or_ge cb.counts.requests cb.config.minimumRequests with hlt | hge
  · rw [if_pos hlt]
    simp only [Bool.false_eq_true, false_iff]
    intro hc
    omega
  · rw [if_neg (Nat.not_lt.mpr hge)]
    by_cases hz : cb.counts.requests = 0
    · rw [if_pos hz]
      simp only [Bool.false_eq_true, false_iff]
      intro hc
      omega
    · rw [if_neg hz]
      simp [decide_eq_true_eq, hge, Nat.pos_of_ne_zero hz]

/-- C1 (amended): for a completion applied in Closed state under a matching
generation, the breaker trips to Open if and only if the completion is a
FAILURE report and, on the counts as updated by that completion
(`totalFailures + 1` over an unchanged `requests`), the request count has
reached `minimumRequestsToTrip` (and is positive — with zero requests Go's
NaN comparison never trips) and the exact failure ratio has reached
`failureRatioThreshold`.  The claim's pure count/ratio condition alone is not
sufficient: a SUCCESS completion satisfying it does not trip
(see the counterexample). -/
theorem spec_C1 (cb : CircuitBreaker) (g t : Nat) (success : Bool)
    (hst : (cb.currentStateUpd t).state = State.StateClosed)
    (hg : (cb.currentStateUpd t).generation = g) :
    (cb.afterRequest g success t).state = State.StateOpen ↔
      (success = false ∧
       cb.config.minimumRequests ≤ (cb.currentStateUpd t).counts.requests ∧
       0 < (cb.currentStateUpd t).counts.requests ∧
       cb.config.failureRatio ≤
         mkRat ((cb.currentStateUpd t).counts.totalFailures + 1 : Int)
           (cb.currentStateUpd t).counts.requests) := by
  have hfr := afterRequest_fresh cb g success t hg
  cases success with
  | true =>
      rw [hfr]
      simp only [if_true]
      rw [hst]
      unfold CircuitBreaker.onSuccess
      simp [hst]
  | false =>
      rw [hfr]
      simp only [Bool.false_eq_true, if_false]
      rw [hst]
      unfold CircuitBreaker.onFailure
      simp only
      by_cases htrip :
          ({ cb.currentStateUpd t with counts := { (cb.currentStateUpd t).counts with
              totalFailures := (cb.currentStateUpd t).counts.totalFailures + 1,
              consecutiveFailures := (cb.currentStateUpd t).counts.consecutiveFailures + 1,
              consecutiveSuccesses := 0 } } : CircuitBreaker).shouldTrip = true
      · rw [if_pos htrip]
        rw [shouldTrip_iff] at htrip
        simp only [currentStateUpd_config] at htrip ⊢
        rw [setState_eq _ _ _ (by rw [hst]; intro hc; cases hc)]
        simpa using htrip
      · rw [if_neg (by simpa using htrip)]
        rw [shouldTrip_iff] at htrip
        simp only [currentStateUpd_config] at htrip ⊢
        simp only [hst]
        constructor
        · intro hc
          cases hc
        · intro hc
          exact absurd (by simpa using hc) htrip

/-- C1 counterexample: a SUCCESS completion in Closed state, with a matching
generation, at whose moment `requests ≥ minimumRequestsToTrip` (5 ≥ 5) and
`totalFailures/requests ≥ failureRatioThreshold` (1/5 ≥ 1/10) both hold —
yet the breaker does not transition to Open, refuting the claim's
"if and only if" (the code evaluates the trip condition only on failure
completions). -/
theorem spec_C1_counterexample :
    (cbC1.currentStateUpd 9).state = State.StateClosed ∧
    (cbC1.currentStateUpd 9).generation = cbC1.generation ∧
    cbC1.config.minimumRequests ≤
      (cbC1.afterRequest cbC1.generation true 9).counts.requests ∧
    cbC1.config.failureRatio ≤
      mkRat ((cbC1.afterRequest cbC1.generation true 9).counts.totalFailures : Int)
        (cbC1.afterRequest cbC1.generation true 9).counts.requests ∧
    (cbC1.afterRequest cbC1.generation true 9).state ≠ State.StateOpen := by
  decide

theorem spec_C1_witness :
    ((cbC1.currentStateUpd 9).state = State.StateClosed ∧
     (cbC1.currentStateUpd 9).generation = cbC1.generation) ∧
    ((cbC1.afterRequest cbC1.generation false 9).state = State.StateOpen ↔
      (false = false ∧
       cbC1.config.minimumRequests ≤ (cbC1.currentStateUpd 9).counts.requests ∧
       0 < (cbC1.currentStateUpd 9).counts.requests ∧
       cbC1.config.failureRatio ≤
         mkRat ((cbC1.currentStateUpd 9).counts.totalFailures + 1 : Int)
           (cbC1.currentStateUpd 9).counts.requests)) :=
  ⟨⟨by decide, by decide⟩,
   spec_C1 cbC1 cbC1.generation 9 false (by decide) (by decide)⟩

/-- C7 counterexample: a registered breaker in Open state whose expiry has
elapsed.  `Manager.GetStats` reports the raw stored state `"open"`, although
`Execute`'s admission-check recompute rule (`currentState`) applied at the
same moment yields HalfOpen — so the snapshot state is NOT computed with the
lazy-state-recompute rule, refuting the claim. -/
theorem spec_C7_counterexample :
    cbExOpen.state = State.StateOpen ∧
    cbExOpen.expiry < 100 ∧
    Manager.GetStats { breakers := [("weather", cbExOpen)] } =
      [("weather", cbExOpen.statsSnapshot)] ∧
    cbExOpen.statsSnapshot.state = "open" ∧
    (cbExOpen.currentStateUpd 100).state = State.StateHalfOpen ∧
    ((cbExOpen.currentStateUpd 100).state).string ≠ cbExOpen.statsSnapshot.state := by
  decide

/-- C7 (amended): `Manager.GetStats` returns, for every registered breaker,
a point-in-time snapshot of its raw stored fields — `Stats()` reads the state
directly and applies NO lazy-state-recompute, so a due Open→HalfOpen
transition is not reflected in the snapshot even though the admission check
at the same moment would apply it; the call mutates nothing (`Stats()` is a
pure read under the read lock). -/
theorem spec_C7 (m : Manager) (name : String) (cb : CircuitBreaker)
    (h : (name, cb) ∈ m.breakers) :
    (name, cb.statsSnapshot) ∈ m.GetStats ∧
    cb.statsSnapshot.state = cb.state.string ∧
    ∀ t, cb.state = State.StateOpen → cb.expiry < t →
      (cb.currentStateUpd t).state = State.StateHalfOpen := by
  refine ⟨?_, rfl, ?_⟩
  · unfold Manager.GetStats
    exact List.mem_map.mpr ⟨(name, cb), h, rfl⟩
  · intro t hs he
    rw [currentStateUpd_open_elapsed cb t hs he]

theorem spec_C7_witness :
    ("weather", cbExOpen.statsSnapshot) ∈
      Manager.GetStats { breakers := [("weather", cbExOpen)] } ∧
    cbExOpen.statsSnapshot.state = cbExOpen.state.string ∧
    (cbExOpen.currentStateUpd 100).state = State.StateHalfOpen :=
  ⟨(spec_C7 { breakers := [("weather", cbExOpen)] } "weather" cbExOpen
      (by decide)).1,
   (spec_C7 { breakers := [("weather", cbExOpen)] } "weather" cbExOpen
      (by decide)).2.1,
   (spec_C7 { breakers := [("weather", cbExOpen)] } "weather" cbExOpen
      (by decide)).2.2 100 (by decide) (by decide)⟩

/-- C6 failing input: `resetInterval = 5` has long elapsed by the evaluation
time, yet for a Closed breaker — both the freshly constructed one and one
that returned to Closed after a trip/recover cycle — the state evaluation is
a complete no-op: no new generation is started and no counts are zeroed,
because the Closed `expiry` is the zero time (the constructor never arms it
and `setState` overwrites the expiry armed by `toNewGeneration` with the zero
time for every non-Open target state), so `currentState`'s Closed reset
branch can never fire. -/
theorem spec_C6_failing :
    (0 < cfgC6.interval ∧
     cbC6fresh.state = State.StateClosed ∧
     cbC6fresh.lastStateChange + cfgC6.interval < 100 ∧
     cbC6fresh.currentStateUpd 100 = cbC6fresh ∧
     (cbC6fresh.beforeRequest 100).2.1 = cbC6fresh.generation) ∧
    (cbC6closedAgain.state = State.StateClosed ∧
     cbC6closedAgain.expiry = 0 ∧
     cbC6closedAgain.lastStateChange + cfgC6.interval < 1000 ∧
     cbC6closedAgain.currentStateUpd 1000 = cbC6closedAgain) := by
  decide

/-- One admitted success in HalfOpen that does not yet reach the probe
target: counters advance, no transition. -/
lemma execute_ok_halfOpen_noClose (cb : CircuitBreaker) (t : Nat)
    (hs : cb.state = State.StateHalfOpen)
    (hlt : cb.counts.requests < cb.config.maxRequests)
    (hcs : cb.counts.consecutiveSuccesses + 1 < cb.config.maxRequests) :
    cb.Execute t t FnOutcome.ok =
      ({ cb with counts := { cb.counts with
          requests := cb.counts.requests + 1,
          totalSuccesses := cb.counts.totalSuccesses + 1,
          consecutiveSuccesses := cb.counts.consecutiveSuccesses + 1 } },
       ExecResult.returned none) := by
  obtain ⟨cfg, st, gen, ⟨r, ts, tf, cs, cf⟩, ex, lsc⟩ := cb
  simp only at hs hlt hcs
  subst hs
  simp [CircuitBreaker.Execute, CircuitBreaker.beforeRequest,
    CircuitBreaker.currentStateUpd, CircuitBreaker.afterRequest,
    CircuitBreaker.onSuccess, Nat.not_le.mpr hlt, Nat.not_le.mpr hcs]

/-- One admitted success in HalfOpen that reaches the probe target: the
breaker closes with a new generation, zeroed counts and zero expiry. -/
lemma execute_ok_halfOpen_close (cb : CircuitBreaker) (t : Nat)
    (hs : cb.state = State.StateHalfOpen)
    (hlt : cb.counts.requests < cb.config.maxRequests)
    (hcs : cb.config.maxRequests ≤ cb.counts.consecutiveSuccesses + 1) :
    cb.Execute t t FnOutcome.ok =
      ({ config := cb.config, state := State.StateClosed,
         generation := cb.generation + 1, counts := Counts.zero,
         expiry := 0, lastStateChange := t },
       ExecResult.returned none) := by
  obtain ⟨cfg, st, gen, ⟨r, ts, tf, cs, cf⟩, ex, lsc⟩ := cb
  simp only at hs hlt hcs ⊢
  subst hs
  by_cases hi : 0 < cfg.interval <;>
    simp [CircuitBreaker.Execute, CircuitBreaker.beforeRequest,
      CircuitBreaker.currentStateUpd, CircuitBreaker.afterRequest,
      CircuitBreaker.onSuccess, CircuitBreaker.setState,
      CircuitBreaker.toNewGeneration, Nat.not_le.mpr hlt, hcs, hi]

/-- While fewer than `maxRequests` successes have been accumulated from the
HalfOpen entry state, every round is admitted and the breaker stays in
HalfOpen with `i` requests and `i` consecutive successes recorded. -/
lemma succRounds_progress (cb : CircuitBreaker) (t : Nat)
    (hs : cb.state = State.StateHalfOpen)
    (hr : cb.counts.requests = 0)
    (hcs : cb.counts.consecutiveSuccesses = 0) :
    ∀ i, i < cb.config.maxRequests →
      succRounds cb t i =
        ({ cb with counts := { requests := i,
                               totalSuccesses := cb.counts.totalSuccesses + i,
                               totalFailures := cb.counts.totalFailures,
                               consecutiveSuccesses := i,
                               consecutiveFailures := cb.counts.consecutiveFailures } },
         true) := by
  intro i
  induction i with
  | zero =>
      intro _
      obtain ⟨cfg, st, gen, ⟨r, ts, tf, cs, cf⟩, ex, lsc⟩ := cb
      simp only at hr hcs
      subst hr hcs
      simp [succRounds]
  | succ k ih =>
      intro hik
      rw [succRounds, ih (Nat.lt_of_succ_lt hik)]
      simp only
      rw [execute_ok_halfOpen_noClose
        { cb with counts := { requests := k,
                              totalSuccesses := cb.counts.totalSuccesses + k,
                              totalFailures := cb.counts.totalFailures,
                              consecutiveSuccesses := k,
                              consecutiveFailures := cb.counts.consecutiveFailures } } t
        hs (Nat.lt_of_succ_lt hik) hik]
      simp [Nat.add_assoc]

/-- C5 (amended): from the state in which HalfOpen is always entered (the
generation's counts fresh: zero requests and zero consecutive successes),
`maxHalfOpenRequests ≥ 1` consecutive admitted successes transition the
breaker to Closed with a new generation and all counters reset to zero.
From a mid-probe HalfOpen state with prior consecutive successes the breaker
closes before the sequence ends and the surplus successes are recorded in the
new Closed generation, leaving its counters nonzero (see the
counterexample). -/
theorem spec_C5 (cb : CircuitBreaker) (t : Nat)
    (hs : cb.state = State.StateHalfOpen)
    (hm : 1 ≤ cb.config.maxRequests)
    (hr : cb.counts.requests = 0)
    (hcs : cb.counts.consecutiveSuccesses = 0) :
    (succRounds cb t cb.config.maxRequests).2 = true ∧
    (succRounds cb t cb.config.maxRequests).1.state = State.StateClosed ∧
    (succRounds cb t cb.config.maxRequests).1.generation = cb.generation + 1 ∧
    (succRounds cb t cb.config.maxRequests).1.counts = Counts.zero := by
  obtain ⟨m, hm2⟩ : ∃ m, cb.config.maxRequests = m + 1 :=
    ⟨cb.config.maxRequests - 1, by omega⟩
  rw [hm2, succRounds]
  rw [succRounds_progress cb t hs hr hcs m (by omega)]
  simp only
  rw [execute_ok_halfOpen_close
    { cb with counts := { requests := m,
                          totalSuccesses := cb.counts.totalSuccesses + m,
                          totalFailures := cb.counts.totalFailures,
                          consecutiveSuccesses := m,
                          consecutiveFailures := cb.counts.consecutiveFailures } } t
    hs (by simpa using Nat.lt_of_lt_of_le (Nat.lt_succ_self m) (le_of_eq hm2.symm))
    (by simpa using le_of_eq hm2)]
  simp

/-- C5 counterexample: from this HalfOpen breaker,
`maxHalfOpenRequests` (= 2) consecutive admitted successes do transition it
to Closed, but its counters are NOT all reset to zero afterwards: the breaker
closes after the first success and the second success is recorded in the new
Closed generation, refuting the claim for arbitrary HalfOpen states. -/
theorem spec_C5_counterexample :
    cbC5.state = State.StateHalfOpen ∧
    (succRounds cbC5 4 cbC5.config.maxRequests).2 = true ∧
    (succRounds cbC5 4 cbC5.config.maxRequests).1.state = State.StateClosed ∧
    (succRounds cbC5 4 cbC5.config.maxRequests).1.counts ≠ Counts.zero := by
  decide

theorem spec_C5_witness :
    (succRounds (cbExOpen.currentStateUpd 100) 101
        (cbExOpen.currentStateUpd 100).config.maxRequests).2 = true ∧
    (succRounds (cbExOpen.currentStateUpd 100) 101
        (cbExOpen.currentStateUpd 100).config.maxRequests).1.state =
      State.StateClosed ∧
    (succRounds (cbExOpen.currentStateUpd 100) 101
        (cbExOpen.currentStateUpd 100).config.maxRequests).1.generation =
      (cbExOpen.currentStateUpd 100).generation + 1 ∧
    (succRounds (cbExOpen.currentStateUpd 100) 101
        (cbExOpen.currentStateUpd 100).config.maxRequests).1.counts =
      Counts.zero :=
  spec_C5 (cbExOpen.currentStateUpd 100) 101
    (by decide) (by decide) (by decide) (by decide)

/-- Under the expiry invariant, the lazy recompute either does nothing or
performs the Open→HalfOpen transition. -/
lemma currentStateUpd_cases (cb : CircuitBreaker) (t : Nat)
    (hexp : cb.state ≠ State.StateOpen → cb.expiry = 0) :
    cb.currentStateUpd t = cb ∨
    (cb.state = State.StateOpen ∧
     cb.currentStateUpd t =
       { config := cb.config, state := State.StateHalfOpen,
         generation := cb.generation + 1, counts := Counts.zero,
         expiry := 0, lastStateChange := t }) := by
  cases hstate : cb.state with
  | StateClosed =>
      exact Or.inl (currentStateUpd_closed_zero cb t hstate
        (hexp (by simp [hstate])))
  | StateOpen =>
      by_cases he : cb.expiry < t
      · exact Or.inr ⟨rfl, currentStateUpd_open_elapsed cb t hstate he⟩
      · exact Or.inl (currentStateUpd_open_notElapsed cb t hstate he)
  | StateHalfOpen =>
      exact Or.inl (currentStateUpd_halfOpen cb t hstate)

/-- The lazy recompute preserves the invariant. -/
lemma inv_upd (cb : CircuitBreaker) (p : List Nat) (t : Nat)
    (h : SysInv ⟨cb, p⟩) : SysInv ⟨cb.currentStateUpd t, p⟩ := by
  simp only [SysInv] at h ⊢
  obtain ⟨h1, h2, h3, h4, h5⟩ := h
  rcases currentStateUpd_cases cb t h5 with he | ⟨hopen, he⟩
  · rw [he]
    exact ⟨h1, h2, h3, h4, h5⟩
  · rw [he]
    have hc : p.count (cb.generation + 1) = 0 :=
      List.count_eq_zero.mpr (fun hmem => by have := h4 _ hmem; omega)
    refine ⟨?_, Or.inl rfl, fun _ => rfl, ?_, fun _ => rfl⟩
    · simp [Counts.zero, hc]
    · intro g hg
      have := h4 g hg
      show g ≤ cb.generation + 1
      omega

lemma beforeRequest_admitted_shape (cb : CircuitBreaker) (t : Nat)
    (cb2 : CircuitBreaker) (g : Nat)
    (h : cb.beforeRequest t = (cb2, g, none)) :
    g = (cb.currentStateUpd t).generation ∧
    cb2 = { cb.currentStateUpd t with
            counts := { (cb.currentStateUpd t).counts with
                        requests := (cb.currentStateUpd t).counts.requests + 1 } } := by
  cases hst : (cb.currentStateUpd t).state with
  | StateClosed =>
      rw [beforeRequest_of_closed cb t hst] at h
      simp only [Prod.mk.injEq] at h
      exact ⟨h.2.1.symm, h.1.symm⟩
  | StateOpen =>
      rw [beforeRequest_of_open cb t hst] at h
      simp at h
  | StateHalfOpen =>
      by_cases hfull : (cb.currentStateUpd t).config.maxRequests ≤
          (cb.currentStateUpd t).counts.requests
      · rw [beforeRequest_of_halfOpen_full cb t hst hfull] at h
        simp at h
      · rw [beforeRequest_of_halfOpen_avail cb t hst (Nat.not_le.mp hfull)] at h
        simp only [Prod.mk.injEq] at h
        exact ⟨h.2.1.symm, h.1.symm⟩

lemma beforeRequest_rejected_shape (cb : CircuitBreaker) (t : Nat)
    (cb2 : CircuitBreaker) (g : Nat) (e : BreakerError)
    (h : cb.beforeRequest t = (cb2, g, some e)) :
    cb2 = cb.currentStateUpd t ∧ g = (cb.currentStateUpd t).generation := by
  cases hst : (cb.currentStateUpd t).state with
  | StateClosed =>
      rw [beforeRequest_of_closed cb t hst] at h
      simp at h
  | StateOpen =>
      rw [beforeRequest_of_open cb t hst] at h
      simp only [Prod.mk.injEq] at h
      exact ⟨h.1.symm, h.2.1.symm⟩
  | StateHalfOpen =>
      by_cases hfull : (cb.currentStateUpd t).config.maxRequests ≤
          (cb.currentStateUpd t).counts.requests
      · rw [beforeRequest_of_halfOpen_full cb t hst hfull] at h
        simp only [Prod.mk.injEq] at h
        exact ⟨h.1.symm, h.2.1.symm⟩
      · rw [beforeRequest_of_halfOpen_avail cb t hst (Nat.not_le.mp hfull)] at h
        simp at h

/-- Any actual `setState` transition yields a fresh generation whose counts
trivially satisfy the invariant, with no pending admission counting against
the new generation id. -/
lemma sysInv_setState_newGen (cb : CircuitBreaker) (s2 : State) (t : Nat)
    (p : List Nat) (hne : cb.state ≠ s2)
    (hbound : ∀ x ∈ p, x ≤ cb.generation) :
    SysInv ⟨cb.setState s2 t, p⟩ := by
  rw [setState_eq cb s2 t hne]
  have hc : p.count (cb.generation + 1) = 0 :=
    List.count_eq_zero.mpr (fun hmem => by have := hbound _ hmem; omega)
  refine ⟨?_, Or.inl rfl, fun _ => rfl, ?_, ?_⟩
  · show Counts.zero.totalSuccesses + Counts.zero.totalFailures
        + p.count (cb.generation + 1) ≤ Counts.zero.requests
    simp [Counts.zero, hc]
  · intro x hx
    have := hbound x hx
    show x ≤ cb.generation + 1
    omega
  · intro hne2
    show (if s2 = State.StateOpen then t + cb.config.timeout else 0) = 0
    rw [if_neg hne2]

/-- A completion with a matching generation consumes one pending admission
and preserves the invariant, whatever the state and outcome. -/
lemma inv_complete (cb1 : CircuitBreaker) (p : List Nat) (g : Nat) (t : Nat)
    (h : SysInv ⟨cb1, p⟩) (hg : g ∈ p) (hgen : cb1.generation = g)
    (success : Bool) :
    SysInv ⟨if success then cb1.onSuccess cb1.state t
            else cb1.onFailure cb1.state t, p.erase g⟩ := by
  simp only [SysInv] at h
  obtain ⟨cfg, st, gen, ⟨r, ts, tf, cs, cf⟩, ex, lsc⟩ := cb1
  dsimp only at hgen
  subst hgen
  simp only at h
  obtain ⟨h1, h2, h3, h4, h5⟩ := h
  have hcnt : 0 < p.count gen := List.count_pos_iff.mpr hg
  have hceq : (p.erase gen).count gen = p.count gen - 1 :=
    List.count_erase_self gen p
  have hsubset : ∀ x ∈ p.erase gen, x ≤ gen :=
    fun x hx => h4 x (p.erase_subset gen hx)
  have hle : (p.erase gen).count gen ≤ p.count gen :=
    (p.erase_sublist gen).count_le gen
  cases st with
  | StateOpen =>
      cases success with
      | true =>
          rw [if_pos rfl]
          dsimp only [CircuitBreaker.onSuccess]
          exact ⟨by show ts + tf + (p.erase gen).count gen ≤ r; omega,
                 h2, (by intro hc; simp at hc), hsubset, h5⟩
      | false =>
          rw [if_neg (by decide)]
          dsimp only [CircuitBreaker.onFailure]
          exact ⟨by show ts + tf + (p.erase gen).count gen ≤ r; omega,
                 h2, (by intro hc; simp at hc), hsubset, h5⟩
  | StateClosed =>
      have hexp : ex = 0 := h5 (by decide)
      cases success with
      | true =>
          rw [if_pos rfl]
          dsimp only [CircuitBreaker.onSuccess]
          exact ⟨by show ts + 1 + tf + (p.erase gen).count gen ≤ r; omega,
                 Or.inr rfl, (by intro hc; simp at hc), hsubset, fun _ => hexp⟩
      | false =>
          rw [if_neg (by decide)]
          dsimp only [CircuitBreaker.onFailure]
          split
          · exact sysInv_setState_newGen _ _ _ _ (by intro hc; simp at hc)
              (fun x hx => hsubset x hx)
          · exact ⟨by show ts + (tf + 1) + (p.erase gen).count gen ≤ r; omega,
                   Or.inl rfl, (by intro hc; simp at hc), hsubset, fun _ => hexp⟩
  | StateHalfOpen =>
      have hcf : cf = 0 := h3 rfl
      have hexp : ex = 0 := h5 (by decide)
      cases success with
      | true =>
          rw [if_pos rfl]
          dsimp only [CircuitBreaker.onSuccess]
          split
          · exact sysInv_setState_newGen _ _ _ _ (by intro hc; simp at hc)
              (fun x hx => hsubset x hx)
          · exact ⟨by show ts + 1 + tf + (p.erase gen).count gen ≤ r; omega,
                   Or.inr hcf, fun _ => hcf, hsubset, fun _ => hexp⟩
      | false =>
          rw [if_neg (by decide)]
          dsimp only [CircuitBreaker.onFailure]
          exact sysInv_setState_newGen _ _ _ _ (by intro hc; simp at hc)
            (fun x hx => hsubset x hx)

/-- Every trace step preserves the invariant. -/
lemma inv_step (s1 s2 : Sys) (hstep : SysStep s1 s2) (h : SysInv s1) :
    SysInv s2 := by
  cases hstep with
  | admitReq t cb2 g ht hbr =>
      obtain ⟨cb, p⟩ := s1
      obtain ⟨hg, hcb2⟩ := beforeRequest_admitted_shape cb t cb2 g hbr
      subst hg
      subst hcb2
      have hI := inv_upd cb p t h
      simp only [SysInv] at hI ⊢
      obtain ⟨h1, h2, h3, h4, h5⟩ := hI
      refine ⟨?_, h2, h3, ?_, h5⟩
      · simp only [List.count_cons_self]
        omega
      · intro x hx
        rcases List.mem_cons.mp hx with hx | hx
        · exact le_of_eq hx
        · exact h4 x hx
  | reject t cb2 g e ht hbr =>
      obtain ⟨cb, p⟩ := s1
      obtain ⟨hcb2, hg⟩ := beforeRequest_rejected_shape cb t cb2 g e hbr
      subst hcb2
      exact inv_upd cb p t h
  | complete t g success ht hg =>
      obtain ⟨cb, p⟩ := s1
      have hI := inv_upd cb p t h
      by_cases hgen : (cb.currentStateUpd t).generation = g
      · rw [afterRequest_fresh cb g success t hgen]
        exact inv_complete (cb.currentStateUpd t) p g t hI hg hgen success
      · rw [afterRequest_stale cb g success t hgen]
        simp only [SysInv] at hI ⊢
        obtain ⟨h1, h2, h3, h4, h5⟩ := hI
        refine ⟨?_, h2, h3, ?_, h5⟩
        · have := (p.erase_sublist g).count_le (cb.currentStateUpd t).generation
          omega
        · exact fun x hx => h4 x (p.erase_subset g hx)
  | readState t ht =>
      obtain ⟨cb, p⟩ := s1
      exact inv_upd cb p t h

/-- The invariant holds in every reachable system state. -/
lemma inv_reachable (config : Config) (s : Sys) (h : Reachable config s) :
    SysInv s := by
  induction h with
  | init t0 ht =>
      refine ⟨?_, Or.inl rfl, fun _ => rfl, ?_, fun _ => rfl⟩
      · show Counts.zero.totalSuccesses + Counts.zero.totalFailures
            + List.count 0 [] ≤ Counts.zero.requests
        simp [Counts.zero]
      · exact fun g hg => absurd hg (List.not_mem_nil g)
  | step s1 s2 h1 h2 ih => exact inv_step s1 s2 h2 ih

/-- C8: in every reachable breaker state (any interleaving of admissions,
completions, rejections and state reads from a fresh breaker), the current
generation's counters satisfy
`totalSuccesses + totalFailures ≤ requests`, and the two consecutive
counters are never both nonzero. -/
theorem spec_C8 (config : Config) (s : Sys) (h : Reachable config s) :
    s.cb.counts.totalSuccesses + s.cb.counts.totalFailures ≤
      s.cb.counts.requests ∧
    (s.cb.counts.consecutiveSuccesses = 0 ∨
     s.cb.counts.consecutiveFailures = 0) := by
  have hi := inv_reachable config s h
  obtain ⟨h1, h2, -, -, -⟩ := hi
  exact ⟨by omega, h2⟩

theorem spec_C8_witness :
    ((cbEx0.beforeRequest 1).1.counts.totalSuccesses +
        (cbEx0.beforeRequest 1).1.counts.totalFailures ≤
      (cbEx0.beforeRequest 1).1.counts.requests) ∧
    ((cbEx0.beforeRequest 1).1.counts.consecutiveSuccesses = 0 ∨
     (cbEx0.beforeRequest 1).1.counts.consecutiveFailures = 0) :=
  spec_C8 cfgEx ⟨(cbEx0.beforeRequest 1).1, [(cbEx0.beforeRequest 1).2.1]⟩
    (Reachable.step ⟨cbEx0, []⟩ _
      (Reachable.init 1 (by decide))
      (SysStep.admitReq ⟨cbEx0, []⟩ 1 (cbEx0.beforeRequest 1).1
        (cbEx0.beforeRequest 1).2.1 (by decide) (by decide)))
